import Mathlib

/-!
Verification of the TeleInflux core (Kaldor37/TeleInflux) against its
natural-language specification.

This file shallowly embeds the frame extractor, the line parser/checksum
validator and the typed field accessor of `teleinflux/teleinfo.py`.
Bytes are modelled as `Nat` values and byte strings as `List Nat`.
Python exceptions are modelled by `Except`; the distinct exception classes
that can escape the parsing functions are the constructors of `ParseErr`
and `GetErr`.  The Teleinfo serial line is configured with 7-bit words
(`_SERIAL_BYTESIZE = 7`), so wire bytes are 7-bit ASCII; `bytes.decode()`
is therefore modelled on the ASCII subset of UTF-8.
-/

/-- The ASCII whitespace bytes stripped by Python's `bytes.strip()`:
space, tab, newline, carriage return, vertical tab, form feed. -/
def isSpaceByte (b : Nat) : Bool :=
  b = 32 ∨ b = 9 ∨ b = 10 ∨ b = 13 ∨ b = 11 ∨ b = 12

/-- Python `frame_data.strip()`: remove leading and trailing ASCII
whitespace bytes. -/
def bytesStrip (s : List Nat) : List Nat :=
  ((s.dropWhile isSpaceByte).reverse.dropWhile isSpaceByte).reverse

/-- Python `frame_data.split(b'\r\n')`: split on each non-overlapping
occurrence of the two-byte sequence CR LF, scanning left to right.
An empty input yields `[[]]` (one empty part), exactly as in Python. -/
def splitCRLF : List Nat → List (List Nat)
  | [] => [[]]
  | [b] => [[b]]
  | b1 :: b2 :: rest =>
    if b1 = 13 ∧ b2 = 10 then
      [] :: splitCRLF rest
    else
      match splitCRLF (b2 :: rest) with
      | [] => [[b1]]
      | l :: ls => (b1 :: l) :: ls

/-- Python `line.split(b' ', 2)`: split on the space byte at most twice;
the remainder after the second space stays in the third part. -/
def pySplitSpace2 (line : List Nat) : List (List Nat) :=
  let parts := line.splitOn 32
  if parts.length ≤ 3 then parts
  else parts.take 2 ++ [List.intercalate [32] (parts.drop 2)]

/-- The checksum the parser computes for a line
(`(sum(int(b) for b in line[0:-2]) & 0x3F) + 0x20`): the sum of all
bytes of the line except the final two, masked with 0x3F, plus 0x20. -/
def computedChecksum (line : List Nat) : Nat :=
  ((line.take (line.length - 2)).sum &&& 0x3F) + 0x20

/-- The exceptions that can escape `TeleinfoReader._parse_frame`.
Only `teleinfo` corresponds to the `TeleinfoException` class raised on a
checksum mismatch (carrying the offending line and the expected and
actual checksum values); the others are built-in Python exceptions:
`valueError` from unpacking a split of fewer than three parts,
`indexError` from `checksum[0]` on an empty third part, and
`unicodeDecodeError` from `label.decode()` on a non-ASCII byte. -/
inductive ParseErr where
  | valueError : ParseErr
  | indexError : ParseErr
  | unicodeDecodeError : ParseErr
  | teleinfo (line : List Nat) (expected actual : Nat) : ParseErr
deriving Repr, DecidableEq

/-- Python `bytes.decode()` restricted to the 7-bit ASCII subset
(the serial source delivers 7-bit words, see module docstring). -/
def decodeAsciiChars : List Nat → Option (List Char)
  | [] => some []
  | b :: rest =>
    if b < 128 then (decodeAsciiChars rest).map (Char.ofNat b :: ·)
    else none

/-- `bytes.decode()` producing a `String`. -/
def decodeAscii (bs : List Nat) : Option String :=
  (decodeAsciiChars bs).map List.asString

/-- One iteration of the loop body of `TeleinfoReader._parse_frame`:
`label, value, checksum = line.split(b' ', 2)` (ValueError on fewer than
three parts), then the checksum computation and comparison against
`checksum[0]` (IndexError on an empty part, TeleinfoException on
mismatch), then `label.decode()`. -/
def parseLine (line : List Nat) : Except ParseErr (String × List Nat) :=
  match pySplitSpace2 line with
  | [label, value, checksum] =>
    match checksum with
    | [] => .error .indexError
    | c :: _ =>
      if computedChecksum line = c then
        match decodeAscii label with
        | some lab => .ok (lab, value)
        | none => .error .unicodeDecodeError
      else
        .error (.teleinfo line (computedChecksum line) c)
  | _ => .error .valueError

/-- The raw-data dictionary of a `TeleinfoFrame`: insertion-ordered
label/value pairs with unique labels, as a Python `dict`. -/
abbrev Dict := List (String × List Nat)

/-- Python `parsed_frame[key] = value` on an insertion-ordered dict:
an existing key keeps its position and gets the new value; a new key is
appended at the end. -/
def dictInsert (d : Dict) (k : String) (v : List Nat) : Dict :=
  match d with
  | [] => [(k, v)]
  | p :: rest => if p.1 = k then (k, v) :: rest else p :: dictInsert rest k v

/-- Python `dict.get`-style lookup returning the stored bytes, `none`
when the key is absent. -/
def dictLookup (d : Dict) (k : String) : Option (List Nat) :=
  (d.find? (fun p => p.1 = k)).map (fun p => p.2)

/-- The line sequence `_parse_frame` iterates over:
`frame_data.strip().split(b'\r\n')`. -/
def pyLines (frame_data : List Nat) : List (List Nat) :=
  splitCRLF (bytesStrip frame_data)

/-- The `for line in ...` loop of `_parse_frame`, threading the
`parsed_frame` dict; the first raised exception aborts the whole frame. -/
def parseFrameGo : List (List Nat) → Dict → Except ParseErr Dict
  | [], acc => .ok acc
  | l :: ls, acc =>
    match parseLine l with
    | .error e => .error e
    | .ok (k, v) => parseFrameGo ls (dictInsert acc k v)

/-- `TeleinfoReader._parse_frame`: strip the payload, split it on CRLF,
validate every line and build the label → raw-value dict. -/
def parse_frame (frame_data : List Nat) : Except ParseErr Dict :=
  parseFrameGo (pyLines frame_data) []

/-- The byte loop of `TeleinfoReader.read_frame`, one byte at a time:
`started` is the Capturing flag, `buf` the accumulated frame buffer.
Exhausting the input returns `none` (Python `return None` when `read`
yields no data); the end marker 0x03 while capturing hands the buffer to
`_parse_frame`; any other byte while capturing is appended; while idle
only the start marker 0x02 switches to capturing. -/
def readFrameGo : List Nat → Bool → List Nat → Option (Except ParseErr Dict)
  | [], _, _ => none
  | b :: rest, started, buf =>
    if started then
      if b = 3 then some (parse_frame buf)
      else readFrameGo rest started (buf ++ [b])
    else
      if b = 2 then readFrameGo rest true buf
      else readFrameGo rest false buf

/-- `TeleinfoReader.read_frame` on a byte stream: starts idle with an
empty buffer. `none` models `return None` (no more data); `some r`
models returning the parsed frame, or the exception `_parse_frame`
raised propagating out. -/
def read_frame (input : List Nat) : Option (Except ParseErr Dict) :=
  readFrameGo input false []

/-- The static field-type table `TeleinfoFrame._FIELD_FORMAT`:
`'str'` and `'int'` become an explicit type tag. -/
inductive FieldType where
  | str : FieldType
  | int : FieldType
deriving Repr, DecidableEq

/-- `TeleinfoFrame._FIELD_FORMAT`, entry for entry. -/
def FIELD_FORMAT : List (String × FieldType) :=
  [("ADCO", .str), ("OPTARIF", .str), ("ISOUSC", .int), ("HCHC", .int),
   ("HCHP", .int), ("PTEC", .str), ("IINST", .int), ("IMAX", .int),
   ("PAPP", .int), ("HHPHC", .str), ("MOTDETAT", .str)]

/-- `self._FIELD_FORMAT.get(key, 'str')`: table lookup defaulting to
the string tag for labels absent from the table. -/
def fieldFormatOf (key : String) : FieldType :=
  ((FIELD_FORMAT.find? (fun p => p.1 = key)).map (fun p => p.2)).getD .str

/-- The value `TeleinfoFrame.get` hands to a formatter:
`self._raw_data.get(key, '')` yields the stored raw *bytes* when the key
is present, but the Python *text* string `''` when it is absent. -/
inductive RawVal where
  | bytes (bs : List Nat) : RawVal
  | pystr (s : String) : RawVal
deriving Repr, DecidableEq

/-- The exceptions that can escape `TeleinfoFrame.get`:
`attributeError` models `AttributeError` from calling `.decode()` on a
`str` (the missing-key fallback `''`), `unicodeDecodeError` a failing
byte decode, `formatValueError` the `ValueError` from `int()` on text
that is not a valid integer. -/
inductive GetErr where
  | attributeError : GetErr
  | unicodeDecodeError : GetErr
  | formatValueError : GetErr
deriving Repr, DecidableEq

/-- `self._raw_data.get(key, '')` in `TeleinfoFrame.get`. -/
def rawGetOrEmptyStr (d : Dict) (key : String) : RawVal :=
  match d.find? (fun p => p.1 = key) with
  | some p => .bytes p.2
  | none => .pystr ""

/-- Python `str.rstrip('.')`: drop all trailing `'.'` characters. -/
def rstripDot (s : String) : String :=
  ((s.toList.reverse.dropWhile (fun c => c = '.')).reverse).asString

/-- ASCII whitespace characters stripped by `int(str)` before parsing. -/
def isPySpaceChar (c : Char) : Bool :=
  c = ' ' ∨ c = '\t' ∨ c = '\n' ∨ c = '\r' ∨ c = Char.ofNat 11 ∨ c = Char.ofNat 12

/-- Strip leading and trailing whitespace characters. -/
def pyStripChars (cs : List Char) : List Char :=
  ((cs.dropWhile isPySpaceChar).reverse.dropWhile isPySpaceChar).reverse

/-- Digit tail of a Python integer literal: decimal digits with single
underscores allowed between digits, accumulating the value. -/
def pyDigitsAux : List Char → Nat → Option Nat
  | [], acc => some acc
  | '_' :: c :: rest, acc =>
    if c.isDigit then pyDigitsAux rest (acc * 10 + (c.toNat - 48)) else none
  | ['_'], _ => none
  | c :: rest, acc =>
    if c.isDigit then pyDigitsAux rest (acc * 10 + (c.toNat - 48)) else none

/-- Unsigned decimal body of `int(str)`: at least one digit, single
underscores permitted between digits only. -/
def pyIntDigits : List Char → Option Nat
  | [] => none
  | c :: rest => if c.isDigit then pyDigitsAux rest (c.toNat - 48) else none

/-- Python `int(text)` on a decoded string: strip whitespace, accept an
optional sign, then a base-10 digit sequence; `none` models the
`ValueError` raised on anything else. -/
def pyInt (s : String) : Option Int :=
  match pyStripChars s.toList with
  | '+' :: rest => (pyIntDigits rest).map (fun n => (n : Int))
  | '-' :: rest => (pyIntDigits rest).map (fun n => -(n : Int))
  | rest => (pyIntDigits rest).map (fun n => (n : Int))

/-- `TeleinfoFrame._format_str`: `value.decode().rstrip('.')`. Calling
it on the `str` fallback raises `AttributeError` (`str` has no
`decode`). -/
def format_str (value : RawVal) : Except GetErr String :=
  match value with
  | .pystr _ => .error .attributeError
  | .bytes bs =>
    match decodeAscii bs with
    | none => .error .unicodeDecodeError
    | some s => .ok (rstripDot s)

/-- `TeleinfoFrame._format_int`: `int(value.decode())`, with the same
`AttributeError` on the `str` fallback. -/
def format_int (value : RawVal) : Except GetErr Int :=
  match value with
  | .pystr _ => .error .attributeError
  | .bytes bs =>
    match decodeAscii bs with
    | none => .error .unicodeDecodeError
    | some s =>
      match pyInt s with
      | none => .error .formatValueError
      | some n => .ok n

/-- A value returned by `TeleinfoFrame.get`: Python `Union[str, int]`. -/
inductive PyVal where
  | s (v : String) : PyVal
  | i (v : Int) : PyVal
deriving Repr, DecidableEq

/-- `TeleinfoFrame.get`: look the key up in the type table (default
`'str'`) and dispatch to the matching formatter on
`self._raw_data.get(key, '')`. -/
def TeleinfoFrame.get (raw_data : Dict) (key : String) : Except GetErr PyVal :=
  match fieldFormatOf key with
  | .str => (format_str (rawGetOrEmptyStr raw_data key)).map PyVal.s
  | .int => (format_int (rawGetOrEmptyStr raw_data key)).map PyVal.i

/-- Encode a text literal as its byte sequence (ASCII code points). -/
def strToBytes (s : String) : List Nat :=
  s.toList.map Char.toNat

/-- The `except TeleinfoException` clause of `Teleinflux.run`
(`teleinflux/__init__.py`): only the `TeleinfoException` raised on a
checksum mismatch is caught (the frame is skipped and the reading loop
continues); every other exception escapes the loop. -/
def caughtByRunLoop : ParseErr → Bool
  | .teleinfo _ _ _ => true
  | _ => false

/-- Whether a frame parse produced a record. -/
def isOkFrame : Except ParseErr Dict → Bool
  | .ok _ => true
  | .error _ => false

/-- Whether a line parse failed the checksum comparison (raised
`TeleinfoException`). -/
def failsChecksum : Except ParseErr (String × List Nat) → Bool
  | .error (.teleinfo _ _ _) => true
  | _ => false

/-- A line is structurally well formed: it splits into three parts with
a nonempty checksum part and an ASCII-decodable label, so that only the
checksum comparison can reject it. -/
def lineOkShape (line : List Nat) : Bool :=
  match pySplitSpace2 line with
  | [label, _, _ :: _] => (decodeAscii label).isSome
  | _ => false

/-- A line whose computed checksum differs from the byte the parser
compares against (`checksum[0]`, the byte after the second space). -/
def lineMismatch (line : List Nat) : Bool :=
  match pySplitSpace2 line with
  | [_, _, c :: _] => computedChecksum line != c
  | _ => false

/-- The byte `checksum[0]` the parser compares the computed checksum
against (0 when the line has no such byte). -/
def embeddedByte (line : List Nat) : Nat :=
  match pySplitSpace2 line with
  | [_, _, c :: _] => c
  | _ => 0

/-- The first checksum-failing line of a payload. -/
def firstBad (payload : List Nat) : List Nat :=
  ((pyLines payload).find? lineMismatch).getD []

/-- Number of entries of a dict holding a given key. -/
def countKey (d : Dict) (k : String) : Nat :=
  (d.filter (fun p => p.1 = k)).length

/-- The spec's description of the stored value for a label: the value
carried by the *last* line of the payload (in payload order) that
parses to that label, `none` when no line does.  Stated from the spec's
words for comparison with `parse_frame`. -/
def specLastValue : List (List Nat) → String → Option (List Nat)
  | [], _ => none
  | l :: ls, k =>
    match specLastValue ls k with
    | some v => some v
    | none =>
      match parseLine l with
      | Except.ok (k', v) => if k' = k then some v else none
      | Except.error _ => none

/-- While idle, bytes other than the start marker are discarded: the
extractor behaves on `pre ++ rest` as on `rest` when `pre` holds no
start marker. -/
lemma readFrameGo_skip (pre rest : List Nat) (h : ∀ b ∈ pre, b ≠ 2) :
    readFrameGo (pre ++ rest) false [] = readFrameGo rest false [] := by
  induction pre with
  | nil => rfl
  | cons a l ih =>
    have ha : a ≠ 2 := h a (List.mem_cons_self a l)
    simp only [List.cons_append, readFrameGo, if_neg ha, Bool.false_eq_true,
      if_false]
    exact ih fun b hb => h b (List.mem_cons_of_mem a hb)

/-- While capturing, if no end marker ever arrives the extractor
consumes the whole input and reports no more data. -/
lemma readFrameGo_none (tail : List Nat) (h : ∀ b ∈ tail, b ≠ 3) :
    ∀ buf, readFrameGo tail true buf = none := by
  induction tail with
  | nil => intro buf; rfl
  | cons a l ih =>
    intro buf
    have ha : a ≠ 3 := h a (List.mem_cons_self a l)
    simp only [readFrameGo, if_neg ha, if_true]
    exact ih (fun b hb => h b (List.mem_cons_of_mem a hb)) _

/-- C5: while the extractor is in the Capturing state, any byte other
than the end marker 0x03 — the start marker 0x02 included — is appended
verbatim to the payload buffer, and the buffer is never cleared or
restarted. -/
theorem C5_capturing_appends_verbatim (b : Nat) (rest buf : List Nat)
    (h : b ≠ 3) :
    readFrameGo (b :: rest) true buf = readFrameGo rest true (buf ++ [b]) := by
  simp only [readFrameGo, if_neg h, if_true]

/-- Witness for C5 at the start marker itself: a 0x02 seen while
capturing is appended to the buffer, not treated as a restart. -/
theorem C5_capturing_appends_verbatim_witness :
    readFrameGo [2, 3] true [65] = readFrameGo [3] true [65, 2] :=
  C5_capturing_appends_verbatim 2 [3] [65] (by decide)

/-- C6: when the stream ends after a start marker but before a matching
end marker, `read_frame` signals no more data (`none`); the partial
buffer is discarded and no record is ever built from it. -/
theorem C6_eof_while_capturing (pre tail : List Nat)
    (hpre : ∀ b ∈ pre, b ≠ 2) (htail : ∀ b ∈ tail, b ≠ 3) :
    read_frame (pre ++ 2 :: tail) = none := by
  unfold read_frame
  rw [readFrameGo_skip pre _ hpre]
  simp only [readFrameGo, Bool.false_eq_true, if_false, if_pos rfl]
  exact readFrameGo_none tail htail []

/-- Witness for C6: noise, a start marker, then data without an end
marker yields `none`. -/
theorem C6_eof_while_capturing_witness :
    read_frame ([0, 1] ++ 2 :: [65, 32, 66]) = none :=
  C6_eof_while_capturing [0, 1] [65, 32, 66] (by decide) (by decide)

/-- C7: bytes preceding the first start marker are discarded without
affecting the result: `read_frame` on noise (no 0x02) followed by any
input equals `read_frame` on that input alone. -/
theorem C7_leading_noise_discarded (noise input : List Nat)
    (h : ∀ b ∈ noise, b ≠ 2) :
    read_frame (noise ++ input) = read_frame input :=
  readFrameGo_skip noise input h

/-- Witness for C7 on a valid one-line frame. -/
theorem C7_leading_noise_discarded_witness :
    read_frame ([0, 1, 65] ++ [2, 65, 32, 66, 32, 67, 3]) =
      read_frame [2, 65, 32, 66, 32, 67, 3] :=
  C7_leading_noise_discarded [0, 1, 65] [2, 65, 32, 66, 32, 67, 3] (by decide)

/-- A line splitting into fewer than three parts raises the tuple-unpack
`ValueError`. -/
lemma parseLine_short (line : List Nat)
    (h : (pySplitSpace2 line).length < 3) :
    parseLine line = Except.error ParseErr.valueError := by
  unfold parseLine
  split
  · rename_i label value checksum hsp
    rw [hsp] at h
    simp at h
  · rfl

/-- If some line of the sequence raises, the whole frame parse raises
(possibly with the error of an earlier line): no record is returned. -/
lemma parseFrameGo_error_of_mem (lines : List (List Nat)) (l : List Nat)
    (e : ParseErr) (hmem : l ∈ lines) (herr : parseLine l = Except.error e) :
    ∀ acc, isOkFrame (parseFrameGo lines acc) = false := by
  induction lines with
  | nil => cases hmem
  | cons a ls ih =>
    intro acc
    rcases List.mem_cons.mp hmem with rfl | hmem'
    · unfold parseFrameGo
      rw [herr]
      rfl
    · unfold parseFrameGo
      cases hpl : parseLine a with
      | error e' => rfl
      | ok kv =>
        obtain ⟨k, v⟩ := kv
        exact ih hmem' _

/-- Counterexample to C1: the payload `b'ADCO'` holds a single line of
one token; parsing raises `ValueError`, which is a different exception
class from the `TeleinfoException` raised on a checksum mismatch and is
not caught by the reading loop's `except TeleinfoException` clause. -/
theorem C1_counterexample :
    parse_frame [65, 68, 67, 79] = Except.error ParseErr.valueError ∧
    caughtByRunLoop ParseErr.valueError = false := by
  exact ⟨rfl, rfl⟩

/-- C1 (amended): a line of fewer than three space-delimited tokens
makes the frame parse fail with no record returned, but through the
tuple-unpack `ValueError` — not the `TeleinfoException` used for
checksum mismatches — and that error escapes the reading loop's
`except` clause instead of being skipped like a checksum error. -/
theorem C1_malformed_line_error (payload line : List Nat)
    (hmem : line ∈ pyLines payload)
    (hlt : (pySplitSpace2 line).length < 3) :
    parseLine line = Except.error ParseErr.valueError ∧
    isOkFrame (parse_frame payload) = false ∧
    caughtByRunLoop ParseErr.valueError = false := by
  have h1 := parseLine_short line hlt
  exact ⟨h1, parseFrameGo_error_of_mem _ line _ hmem h1 [], rfl⟩

/-- Witness for C1 (amended) on the payload `b'ADCO 1234\r\nA'`. -/
theorem C1_malformed_line_error_witness :
    parseLine [65] = Except.error ParseErr.valueError ∧
    isOkFrame (parse_frame
      [65, 68, 67, 79, 32, 49, 50, 51, 52, 13, 10, 65]) = false ∧
    caughtByRunLoop ParseErr.valueError = false :=
  C1_malformed_line_error [65, 68, 67, 79, 32, 49, 50, 51, 52, 13, 10, 65]
    [65] (by decide) (by decide)

/-- Counterexample to C2: the empty payload does not yield an empty
record; `b''.split(b'\r\n')` is `[b'']`, and that single empty line
fails the three-token unpack with a `ValueError`. -/
theorem C2_counterexample :
    parse_frame [] = Except.error ParseErr.valueError := rfl

/-- All-whitespace byte strings strip to the empty string. -/
lemma bytesStrip_all_space (s : List Nat)
    (h : ∀ b ∈ s, isSpaceByte b = true) : bytesStrip s = [] := by
  unfold bytesStrip
  have h1 : s.dropWhile isSpaceByte = [] := List.dropWhile_eq_nil_iff.mpr h
  rw [h1]
  rfl

/-- C2 (amended): a frame payload that is empty, or all whitespace after
trimming, parses to a `ValueError` (the stripped payload splits into one
empty line, which fails the three-token unpack); no empty record is
returned. -/
theorem C2_empty_payload_raises (frame_data : List Nat)
    (h : ∀ b ∈ frame_data, isSpaceByte b = true) :
    parse_frame frame_data = Except.error ParseErr.valueError := by
  unfold parse_frame pyLines
  rw [bytesStrip_all_space frame_data h]
  rfl

/-- Witness for C2 (amended) on a whitespace-only payload. -/
theorem C2_empty_payload_raises_witness :
    parse_frame [32, 9, 13, 10] = Except.error ParseErr.valueError :=
  C2_empty_payload_raises [32, 9, 13, 10] (by decide)

/-- Counterexample to C3: in the line `b'A B #X'` the parser's checksum
comparison byte is `checksum[0] = '#'` (0x23, the byte right after the
second space), not the line's last byte `'X'` (0x58).  The computed
checksum is 0x23, so the line validates, although it differs from the
line's last byte. -/
theorem C3_counterexample :
    parseLine [65, 32, 66, 32, 35, 88] = Except.ok ("A", [66]) ∧
    computedChecksum [65, 32, 66, 32, 35, 88] = 35 ∧
    [65, 32, 66, 32, 35, 88].getLast? = some 88 ∧ (35 : Nat) ≠ 88 := by
  refine ⟨rfl, by decide, by decide, by decide⟩

/-- C3 (amended): the computed checksum is the sum of all bytes of the
line except the final two, masked with 0x3F, plus 0x20; the line fails
checksum validation exactly when this value differs from the *first byte
of the third space-split token* (the byte immediately after the second
space).  For a well-formed line whose checksum token is a single byte,
that byte is the line's last byte. -/
theorem C3_checksum_comparison (line label value : List Nat) (c : Nat)
    (rest : List Nat) (h : pySplitSpace2 line = [label, value, c :: rest]) :
    (failsChecksum (parseLine line) = true ↔ computedChecksum line ≠ c) := by
  unfold parseLine
  rw [h]
  by_cases hc : computedChecksum line = c
  · simp only [hc, if_pos rfl]
    cases hd : decodeAscii label <;> simp [failsChecksum]
  · simp [hc, failsChecksum]

/-- Witness for C3 (amended) at the counterexample line. -/
theorem C3_checksum_comparison_witness :
    (failsChecksum (parseLine [65, 32, 66, 32, 35, 88]) = true ↔
      computedChecksum [65, 32, 66, 32, 35, 88] ≠ 35) :=
  C3_checksum_comparison [65, 32, 66, 32, 35, 88] [65] [66] 35 [88]
    (by decide)

/-- A checksum-failing line raises `TeleinfoException` carrying the
offending line, the computed (expected) checksum and the embedded
(actual) comparison byte. -/
lemma parseLine_mismatch (line : List Nat) (hm : lineMismatch line = true) :
    parseLine line =
      Except.error (ParseErr.teleinfo line (computedChecksum line)
        (embeddedByte line)) := by
  unfold lineMismatch at hm
  split at hm
  · rename_i a b c tl hsp
    have hne : computedChecksum line ≠ c := by simpa using hm
    unfold parseLine embeddedByte
    rw [hsp]
    simp [hne]
  · simp at hm

/-- A structurally well-formed line that passes the checksum comparison
parses successfully. -/
lemma parseLine_ok_shape (line : List Nat) (hs : lineOkShape line = true)
    (hm : lineMismatch line = false) :
    ∃ kv, parseLine line = Except.ok kv := by
  unfold lineOkShape at hs
  split at hs
  · rename_i label b c tl hsp
    unfold lineMismatch at hm
    rw [hsp] at hm
    simp only [bne_eq_false_iff_eq] at hm
    cases hd : decodeAscii label with
    | none => rw [hd] at hs; simp at hs
    | some lab =>
      refine ⟨(lab, b), ?_⟩
      unfold parseLine
      rw [hsp]
      simp [hm, hd]
  · simp at hs

/-- The frame loop on a sequence of structurally well-formed lines with
at least one checksum failure raises the `TeleinfoException` of the
first failing line, whatever the accumulated dict. -/
lemma parseFrameGo_checksum : ∀ (lines : List (List Nat)),
    (∀ l ∈ lines, lineOkShape l = true) → lines.any lineMismatch = true →
    ∀ acc, parseFrameGo lines acc =
      Except.error (ParseErr.teleinfo ((lines.find? lineMismatch).getD [])
        (computedChecksum ((lines.find? lineMismatch).getD []))
        (embeddedByte ((lines.find? lineMismatch).getD []))) := by
  intro lines
  induction lines with
  | nil => intro _ hbad; simp at hbad
  | cons a ls ih =>
    intro hshape hbad acc
    by_cases hma : lineMismatch a = true
    · rw [List.find?_cons_of_pos _ hma]
      unfold parseFrameGo
      rw [parseLine_mismatch a hma]
      simp
    · have hma' : lineMismatch a = false := by simpa using hma
      have hbad' : ls.any lineMismatch = true := by
        rw [List.any_cons, hma'] at hbad
        simpa using hbad
      obtain ⟨kv, hkv⟩ :=
        parseLine_ok_shape a (hshape a (List.mem_cons_self a ls)) hma'
      rw [List.find?_cons_of_neg _ (by simp [hma'])]
      unfold parseFrameGo
      rw [hkv]
      obtain ⟨k, v⟩ := kv
      exact ih (fun l hl => hshape l (List.mem_cons_of_mem a hl)) hbad' _

/-- Counterexample to C4: the payload `b'A\r\nA B 8'` contains the line
`b'A B 8'` whose computed checksum 0x43 differs from its embedded byte
0x38, yet parsing fails with the malformed first line's `ValueError`,
not with a `TeleinfoException` (so not with "the same recoverable error
kind as a checksum mismatch"). -/
theorem C4_counterexample :
    lineMismatch [65, 32, 66, 32, 56] = true ∧
    [65, 32, 66, 32, 56] ∈ pyLines [65, 13, 10, 65, 32, 66, 32, 56] ∧
    parse_frame [65, 13, 10, 65, 32, 66, 32, 56] =
      Except.error ParseErr.valueError ∧
    caughtByRunLoop ParseErr.valueError = false := by
  refine ⟨by decide, by decide, rfl, rfl⟩

/-- C4 (amended): when every line of the payload is structurally well
formed (three space-split tokens, a nonempty checksum token — so each
line has an embedded comparison byte — and a decodable label) and at
least one line's computed checksum differs from that byte, the frame
parse fails with the `TeleinfoException` identifying the first offending
line and the expected versus actual checksum values; the result is an
error, so no record — in particular none holding fields of earlier valid
lines — is returned. -/
theorem C4_checksum_mismatch_aborts_frame (payload : List Nat)
    (hshape : (pyLines payload).all lineOkShape = true)
    (hbad : (pyLines payload).any lineMismatch = true) :
    parse_frame payload =
      Except.error (ParseErr.teleinfo (firstBad payload)
        (computedChecksum (firstBad payload))
        (embeddedByte (firstBad payload))) := by
  unfold parse_frame firstBad
  exact parseFrameGo_checksum (pyLines payload)
    (fun l hl => by
      have := List.all_eq_true.mp hshape l hl
      simpa using this) hbad []

/-- Witness for C4 on `b'A B C\r\nA B 8'`: the second line's computed
checksum 0x43 differs from its embedded byte 0x38 and the whole frame
errors, though the first line is valid. -/
theorem C4_checksum_mismatch_aborts_frame_witness :
    parse_frame [65, 32, 66, 32, 67, 13, 10, 65, 32, 66, 32, 56] =
      Except.error (ParseErr.teleinfo
        (firstBad [65, 32, 66, 32, 67, 13, 10, 65, 32, 66, 32, 56])
        (computedChecksum
          (firstBad [65, 32, 66, 32, 67, 13, 10, 65, 32, 66, 32, 56]))
        (embeddedByte
          (firstBad [65, 32, 66, 32, 67, 13, 10, 65, 32, 66, 32, 56]))) :=
  C4_checksum_mismatch_aborts_frame
    [65, 32, 66, 32, 67, 13, 10, 65, 32, 66, 32, 56] (by decide) (by decide)

/-- The outcome of the integer path of `get` as a function of `int()`'s
result: the parsed integer, or the `ValueError` raised by `int()`. -/
def intResultOf : Option Int → Except GetErr PyVal
  | some n => .ok (.i n)
  | none => .error .formatValueError

/-- C8: `get(label)` coerces per the static type table: the string path
decodes the stored bytes and strips trailing `'.'` characters; the
integer path parses the decoded text as a base-10 integer and fails with
`int()`'s `ValueError` when the text is not a valid integer; concretely,
`ADCO` with raw value `b'012345678901.'` yields the string
`"012345678901"` and `HCHC` with raw value `b'001234567'` yields the
integer 1234567. -/
theorem C8_typed_field_access (raw : Dict) (key : String) (v : List Nat)
    (s : String) (hmem : dictLookup raw key = some v)
    (hdec : decodeAscii v = some s) :
    (fieldFormatOf key = FieldType.str →
      TeleinfoFrame.get raw key = Except.ok (PyVal.s (rstripDot s))) ∧
    (fieldFormatOf key = FieldType.int →
      TeleinfoFrame.get raw key = intResultOf (pyInt s)) ∧
    TeleinfoFrame.get [("ADCO", strToBytes "012345678901.")] "ADCO" =
      Except.ok (PyVal.s "012345678901") ∧
    TeleinfoFrame.get [("HCHC", strToBytes "001234567")] "HCHC" =
      Except.ok (PyVal.i 1234567) := by
  have hraw : rawGetOrEmptyStr raw key = RawVal.bytes v := by
    unfold dictLookup at hmem
    obtain ⟨p, hp, hpv⟩ := Option.map_eq_some'.mp hmem
    unfold rawGetOrEmptyStr
    rw [hp]
    exact congrArg RawVal.bytes hpv
  refine ⟨?_, ?_, rfl, rfl⟩
  · intro hff
    simp only [TeleinfoFrame.get, hff, hraw, format_str, hdec]
    rfl
  · intro hff
    simp only [TeleinfoFrame.get, hff, hraw, format_int, hdec]
    cases hpi : pyInt s <;> simp [intResultOf, Except.map]

/-- Witness for C8 at the `HCHC` record of the spec's concrete
scenario. -/
theorem C8_typed_field_access_witness :
    (fieldFormatOf "HCHC" = FieldType.str →
      TeleinfoFrame.get [("HCHC", strToBytes "001234567")] "HCHC" =
        Except.ok (PyVal.s (rstripDot "001234567"))) ∧
    (fieldFormatOf "HCHC" = FieldType.int →
      TeleinfoFrame.get [("HCHC", strToBytes "001234567")] "HCHC" =
        intResultOf (pyInt "001234567")) ∧
    TeleinfoFrame.get [("ADCO", strToBytes "012345678901.")] "ADCO" =
      Except.ok (PyVal.s "012345678901") ∧
    TeleinfoFrame.get [("HCHC", strToBytes "001234567")] "HCHC" =
      Except.ok (PyVal.i 1234567) :=
  C8_typed_field_access [("HCHC", strToBytes "001234567")] "HCHC"
    (strToBytes "001234567") "001234567" rfl rfl

/-- Looking up after a dict assignment: the assigned key now holds the
new value; other keys are untouched. -/
lemma dictLookup_insert (d : Dict) (k k' : String) (v : List Nat) :
    dictLookup (dictInsert d k v) k' =
      if k' = k then some v else dictLookup d k' := by
  induction d with
  | nil =>
    by_cases h : k' = k
    · subst h; simp [dictInsert, dictLookup, List.find?]
    · simp [dictInsert, dictLookup, List.find?, h, Ne.symm h]
  | cons p rest ih =>
    by_cases hp : p.1 = k
    · by_cases h : k' = k
      · subst h
        simp [dictInsert, hp, dictLookup, List.find?]
      · have hpk : ¬p.1 = k' := fun hc => h (hc.symm.trans hp)
        simp [dictInsert, hp, dictLookup, List.find?, h, Ne.symm h, hpk]
    · by_cases h : p.1 = k'
      · have hk : ¬k' = k := fun hc => hp (h.trans hc)
        simp [dictInsert, hp, dictLookup, List.find?, h, hk]
      · simp only [dictInsert, if_neg hp]
        unfold dictLookup at ih ⊢
        simp [List.find?, h, ih]

/-- Unfolding `countKey` over a cons cell. -/
lemma countKey_cons (p : String × List Nat) (rest : Dict) (k' : String) :
    countKey (p :: rest) k' =
      (if p.1 = k' then 1 else 0) + countKey rest k' := by
  unfold countKey
  rw [List.filter_cons]
  by_cases hp : p.1 = k' <;> simp [hp, Nat.add_comm]

/-- A dict assignment with one key does not change how many entries
hold a different key. -/
lemma countKey_insert_ne (d : Dict) (k k' : String) (v : List Nat)
    (h : k ≠ k') : countKey (dictInsert d k v) k' = countKey d k' := by
  induction d with
  | nil => simp [dictInsert, countKey, List.filter, h]
  | cons p rest ih =>
    by_cases hp : p.1 = k
    · have hd : dictInsert (p :: rest) k v = (k, v) :: rest := by
        simp [dictInsert, hp]
      rw [hd, countKey_cons, countKey_cons]
      have hpk : ¬p.1 = k' := fun hc => h (hp.symm.trans hc)
      rw [if_neg h, if_neg hpk]
    · have hd : dictInsert (p :: rest) k v = p :: dictInsert rest k v := by
        simp [dictInsert, hp]
      rw [hd, countKey_cons, countKey_cons, ih]

/-- A dict assignment preserves the at-most-one-entry-per-key
invariant. -/
lemma countKey_insert_le (d : Dict) (k k' : String) (v : List Nat)
    (h : countKey d k' ≤ 1) : countKey (dictInsert d k v) k' ≤ 1 := by
  induction d with
  | nil =>
    by_cases hk : k = k' <;> simp [dictInsert, countKey, List.filter, hk]
  | cons p rest ih =>
    rw [countKey_cons] at h
    by_cases hp : p.1 = k
    · have hd : dictInsert (p :: rest) k v = (k, v) :: rest := by
        simp [dictInsert, hp]
      rw [hd, countKey_cons]
      by_cases hk : k = k'
      · rw [if_pos hk]
        rw [if_pos (hp.trans hk)] at h
        omega
      · rw [if_neg hk]
        have hpk : ¬p.1 = k' := fun hc => hk (hp.symm.trans hc)
        rw [if_neg hpk] at h
        omega
    · have hd : dictInsert (p :: rest) k v = p :: dictInsert rest k v := by
        simp [dictInsert, hp]
      rw [hd, countKey_cons]
      by_cases hpk : p.1 = k'
      · rw [if_pos hpk] at h ⊢
        have hk : k ≠ k' := fun hc => hp (hpk.trans hc.symm)
        rw [countKey_insert_ne rest k k' v hk]
        omega
      · rw [if_neg hpk] at h ⊢
        have := ih (by omega)
        omega

/-- The frame loop's final dict, at any key, holds the value of the
last line parsing to that key, falling back to the starting dict. -/
lemma parseFrameGo_lookup : ∀ (lines : List (List Nat)) (acc d : Dict)
    (k : String), parseFrameGo lines acc = Except.ok d →
    dictLookup d k =
      (match specLastValue lines k with
       | some v => some v
       | none => dictLookup acc k) := by
  intro lines
  induction lines with
  | nil =>
    intro acc d k h
    unfold parseFrameGo at h
    cases h
    simp [specLastValue]
  | cons l ls ih =>
    intro acc d k h
    unfold parseFrameGo at h
    cases hpl : parseLine l with
    | error e => rw [hpl] at h; cases h
    | ok kv =>
      obtain ⟨k', v⟩ := kv
      rw [hpl] at h
      rw [ih (dictInsert acc k' v) d k h]
      simp only [specLastValue]
      rw [hpl]
      cases hsl : specLastValue ls k with
      | some w => rfl
      | none =>
        rw [dictLookup_insert]
        by_cases hk : k' = k
        · simp [hk]
        · have hk2 : ¬k = k' := fun hc => hk hc.symm
          simp [hk, hk2]

/-- The frame loop preserves key uniqueness of the dict. -/
lemma parseFrameGo_count : ∀ (lines : List (List Nat)) (acc d : Dict)
    (k : String), parseFrameGo lines acc = Except.ok d →
    countKey acc k ≤ 1 → countKey d k ≤ 1 := by
  intro lines
  induction lines with
  | nil =>
    intro acc d k h hacc
    unfold parseFrameGo at h
    cases h
    exact hacc
  | cons l ls ih =>
    intro acc d k h hacc
    unfold parseFrameGo at h
    cases hpl : parseLine l with
    | error e => rw [hpl] at h; cases h
    | ok kv =>
      obtain ⟨k', v⟩ := kv
      rw [hpl] at h
      exact ih _ _ _ h (countKey_insert_le _ _ _ _ hacc)

/-- C9: in a record produced by parsing a frame payload, each label
holds at most one entry, and the stored value for a label is exactly the
value of the last line of the payload (in payload order) parsing to that
label. -/
theorem C9_duplicate_label_last_wins (payload : List Nat) (d : Dict)
    (k : String) (h : parse_frame payload = Except.ok d) :
    countKey d k ≤ 1 ∧
    dictLookup d k = specLastValue (pyLines payload) k := by
  constructor
  · exact parseFrameGo_count _ _ _ _ h (by simp [countKey])
  · rw [parseFrameGo_lookup _ _ _ k h]
    cases specLastValue (pyLines payload) k <;> simp [dictLookup]

/-- Witness for C9 on `b'A B C\r\nA C D'`: the label `A` appears on two
valid lines; the record holds the second line's value. -/
theorem C9_duplicate_label_last_wins_witness :
    countKey [("A", [67])] "A" ≤ 1 ∧
    dictLookup [("A", [67])] "A" =
      specLastValue (pyLines [65, 32, 66, 32, 67, 13, 10, 65, 32, 67, 32, 68])
        "A" :=
  C9_duplicate_label_last_wins
    [65, 32, 66, 32, 67, 13, 10, 65, 32, 67, 32, 68] [("A", [67])] "A" rfl

/-- C10: `get` on a label absent from the record fails with
`AttributeError` rather than returning a default: the missing-key
fallback of `self._raw_data.get(key, '')` is the text string `''`, not a
byte sequence, so both `_format_str` and `_format_int` fail on it when
they call `.decode()`. -/
theorem C10_missing_key_raises (raw : Dict) (key : String)
    (h : dictLookup raw key = none) :
    TeleinfoFrame.get raw key = Except.error GetErr.attributeError ∧
    format_str (RawVal.pystr "") = Except.error GetErr.attributeError ∧
    format_int (RawVal.pystr "") = Except.error GetErr.attributeError := by
  have hraw : rawGetOrEmptyStr raw key = RawVal.pystr "" := by
    unfold dictLookup at h
    unfold rawGetOrEmptyStr
    rw [Option.map_eq_none'.mp h]
  refine ⟨?_, rfl, rfl⟩
  cases hff : fieldFormatOf key <;>
    simp only [TeleinfoFrame.get, hff, hraw, format_str, format_int] <;> rfl

/-- Witness for C10 at the known-Integer label `HCHC` on an empty
record. -/
theorem C10_missing_key_raises_witness :
    TeleinfoFrame.get [] "HCHC" = Except.error GetErr.attributeError ∧
    format_str (RawVal.pystr "") = Except.error GetErr.attributeError ∧
    format_int (RawVal.pystr "") = Except.error GetErr.attributeError :=
  C10_missing_key_raises [] "HCHC" rfl
